import Mathlib

/-!
Verification of the circuit-breaker decision engine (NTbankey1/circuit-breaker).

The definitions below are a shallow embedding of the Go sources under
`internal/circuitbreaker/`.  Machine time (`time.Time`, `time.Duration`) is
modelled as `Int` nanoseconds, with `0` playing the role of the zero time and
`t.Before u` rendered as `t < u`.  All `uint32` tallies — the breaker's
`Counts` fields and the sliding window's bucket and aggregate fields — are
modelled as `Nat` values below `2 ^ 32`, with the explicit `% 2 ^ 32`
wrap-around of Go unsigned arithmetic on every increment and subtraction.
Callback invocations of the configured state-change notifier are recorded in
an explicit event log so that theorems can speak about them.
-/

namespace CircuitBreakerSpec

/-- `State` from state.go: Closed = 0, HalfOpen = 1, Open = 2 (iota order). -/
inductive State where
  | closed
  | halfOpen
  | open_
deriving DecidableEq, Repr

/-- Numeric rendering of a state, as used by the metrics gauge. -/
def State.toNat : State → Nat
  | State.closed => 0
  | State.halfOpen => 1
  | State.open_ => 2

/-- Textual rendering from state.go. -/
def State.render : State → String
  | State.closed => "closed"
  | State.halfOpen => "half-open"
  | State.open_ => "open"

/-- `2 ^ 32`, the modulus of every `uint32` tally of the source. -/
def u32Mod : Nat := 4294967296

/-- `Counts` from state.go: five `uint32` tallies. -/
structure Counts where
  requests : Nat := 0
  totalSuccesses : Nat := 0
  totalFailures : Nat := 0
  consecutiveSuccesses : Nat := 0
  consecutiveFailures : Nat := 0
deriving DecidableEq, Repr

/-- `Counts.onRequest` from state.go; the `uint32` increment wraps. -/
def Counts.onRequest (c : Counts) : Counts :=
  { c with requests := (c.requests + 1) % u32Mod }

/-- `Counts.onSuccess` from state.go; the `uint32` increments wrap. -/
def Counts.onSuccess (c : Counts) : Counts :=
  { c with
    totalSuccesses := (c.totalSuccesses + 1) % u32Mod
    consecutiveSuccesses := (c.consecutiveSuccesses + 1) % u32Mod
    consecutiveFailures := 0 }

/-- `Counts.onFailure` from state.go; the `uint32` increments wrap. -/
def Counts.onFailure (c : Counts) : Counts :=
  { c with
    totalFailures := (c.totalFailures + 1) % u32Mod
    consecutiveFailures := (c.consecutiveFailures + 1) % u32Mod
    consecutiveSuccesses := 0 }

/-- `Counts.clear` from state.go. -/
def Counts.clear (_ : Counts) : Counts := {}

/-- One nanosecond-resolution second, for the duration defaults of the source. -/
def nsPerSecond : Int := 1000000000

/-- The two rejection errors of breaker.go (`ErrCircuitOpen`,
`ErrTooManyRequests`), distinguishable by kind. -/
inductive Rejection where
  | circuitOpen
  | tooManyRequests
deriving DecidableEq, Repr

/-- `Config` from config.go.  Function-typed fields that may be nil in Go are
`Option`-valued here.  `isSuccessful` is the success classifier documented on
the source's `Config.IsSuccessful` field. -/
structure Config (ε : Type) where
  maxRequests : Nat := 0
  interval : Int := 0
  timeout : Int := 0
  readyToTrip : Option (Counts → Bool) := none
  isSuccessful : Option (Option ε → Bool) := none

/-- `CircuitBreaker` from breaker.go.  `notifications` is an explicit event
log of the `(from, to)` pairs with which the configured `onStateChange`
notifier is invoked; the remaining fields are the struct's fields.  The
source's `CircuitBreaker` stores no success classifier. -/
structure CircuitBreaker where
  maxRequests : Nat
  interval : Int
  timeout : Int
  readyToTrip : Counts → Bool
  state : State
  generation : Nat
  counts : Counts
  expiry : Int
  notifications : List (State × State)

/-- `toNewGeneration` from breaker.go: bump the generation, clear the counts,
recompute the expiry from the current state. -/
def toNewGeneration (cb : CircuitBreaker) (now : Int) : CircuitBreaker :=
  { cb with
    generation := cb.generation + 1
    counts := {}
    expiry :=
      match cb.state with
      | State.closed => if cb.interval = 0 then 0 else now + cb.interval
      | State.open_ => now + cb.timeout
      | State.halfOpen => 0 }

/-- `setState` from breaker.go: no-op when the state is unchanged, otherwise
switch state, enter a new generation, and invoke the notifier. -/
def setState (cb : CircuitBreaker) (s : State) (now : Int) : CircuitBreaker :=
  if cb.state = s then cb
  else
    let cb2 := toNewGeneration { cb with state := s } now
    { cb2 with notifications := cb2.notifications ++ [(cb.state, s)] }

/-- `currentState` from breaker.go: the lazy transition policy.  In Closed a
non-zero elapsed interval rolls the generation; in Open an elapsed timeout
moves to Half-Open.  Both comparisons are the strict `expiry.Before(now)`. -/
def currentState (cb : CircuitBreaker) (now : Int) : CircuitBreaker × State × Nat :=
  let cb :=
    match cb.state with
    | State.closed =>
        if cb.expiry ≠ 0 ∧ cb.expiry < now then toNewGeneration cb now else cb
    | State.open_ =>
        if cb.expiry < now then setState cb State.halfOpen now else cb
    | State.halfOpen => cb
  (cb, cb.state, cb.generation)

/-- `beforeRequest` from breaker.go: the admission protocol. -/
def beforeRequest (cb : CircuitBreaker) (now : Int) : CircuitBreaker × Nat × Option Rejection :=
  match currentState cb now with
  | (cb, st, generation) =>
    if st = State.open_ then (cb, generation, some Rejection.circuitOpen)
    else if st = State.halfOpen ∧ cb.maxRequests ≤ cb.counts.requests then
      (cb, generation, some Rejection.tooManyRequests)
    else ({ cb with counts := cb.counts.onRequest }, generation, none)

/-- `onSuccess` method of `CircuitBreaker` from breaker.go (the source inlines
the same five-field updates that `Counts.onSuccess` performs). -/
def CircuitBreaker.onSuccess (cb : CircuitBreaker) (st : State) (now : Int) : CircuitBreaker :=
  match st with
  | State.closed => { cb with counts := cb.counts.onSuccess }
  | State.halfOpen =>
      let cb := { cb with counts := cb.counts.onSuccess }
      if cb.maxRequests ≤ cb.counts.consecutiveSuccesses then
        setState cb State.closed now
      else cb
  | State.open_ => cb

/-- `onFailure` method of `CircuitBreaker` from breaker.go. -/
def CircuitBreaker.onFailure (cb : CircuitBreaker) (st : State) (now : Int) : CircuitBreaker :=
  match st with
  | State.closed =>
      let cb := { cb with counts := cb.counts.onFailure }
      if cb.readyToTrip cb.counts then setState cb State.open_ now else cb
  | State.halfOpen => setState cb State.open_ now
  | State.open_ => cb

/-- `afterRequest` from breaker.go: the completion protocol, with the
generation-token discard. -/
def afterRequest (cb : CircuitBreaker) (before : Nat) (success : Bool) (now : Int) :
    CircuitBreaker :=
  match currentState cb now with
  | (cb, st, generation) =>
    if generation ≠ before then cb
    else if success then cb.onSuccess st now
    else cb.onFailure st now

/-- `New` from breaker.go: apply the defaults and enter the first
generation.  The source never reads `config.IsSuccessful`. -/
def New {ε : Type} (config : Config ε) (now : Int) : CircuitBreaker :=
  let cb : CircuitBreaker :=
    { maxRequests := if config.maxRequests = 0 then 1 else config.maxRequests
      interval := config.interval
      timeout := if config.timeout = 0 then 60 * nsPerSecond else config.timeout
      readyToTrip :=
        config.readyToTrip.getD (fun counts => decide (5 < counts.consecutiveFailures))
      state := State.closed
      generation := 0
      counts := {}
      expiry := 0
      notifications := [] }
  toNewGeneration cb now

/-- Result classification of `Execute`: either one of the two rejection
errors from `beforeRequest`, or the error value the work itself returned. -/
inductive ExecError (ε : Type) where
  | rejected (r : Rejection)
  | work (e : ε)
deriving DecidableEq, Repr

/-- `Execute` from breaker.go.  The work unit is represented by the error
value it returns (`none` = nil).  The success flag passed to `afterRequest`
is literally `err == nil`; the configured success classifier plays no part. -/
def Execute {ε : Type} (cb : CircuitBreaker) (fnResult : Option ε)
    (nowBefore nowAfter : Int) : CircuitBreaker × Option (ExecError ε) :=
  match beforeRequest cb nowBefore with
  | (cb, _, some r) => (cb, some (ExecError.rejected r))
  | (cb, generation, none) =>
      let cb := afterRequest cb generation fnResult.isNone nowAfter
      (cb, fnResult.map ExecError.work)

/-- The `State()` method from breaker.go: reads the effective state through
`currentState`, so it performs the lazy transitions. -/
def CircuitBreaker.readState (cb : CircuitBreaker) (now : Int) : CircuitBreaker × State :=
  match currentState cb now with
  | (cb, st, _) => (cb, st)

/-- The `Counts()` method from breaker.go: returns the stored tallies
directly, without calling `currentState`. -/
def CircuitBreaker.readCounts (cb : CircuitBreaker) : CircuitBreaker × Counts :=
  (cb, cb.counts)

/-! ### Sliding window (sliding_window.go)

The window's tallies are `uint32` in the source; subtraction there wraps
modulo `2 ^ 32`, which matters for the reader's passive expiry, so the
wrap is modelled explicitly. -/

/-- Wrapping `uint32` subtraction (operands are kept below `2 ^ 32`). -/
def sub32 (a b : Nat) : Nat := (a % u32Mod + u32Mod - b % u32Mod) % u32Mod

/-- Wrapping `uint32` increment. -/
def inc32 (a : Nat) : Nat := (a + 1) % u32Mod

/-- `Bucket` from sliding_window.go. -/
structure Bucket where
  startTime : Int
  requests : Nat := 0
  successes : Nat := 0
  failures : Nat := 0
deriving DecidableEq, Repr

/-- `windowCounts` from sliding_window.go. -/
structure WindowCounts where
  requests : Nat := 0
  successes : Nat := 0
  failures : Nat := 0
deriving DecidableEq, Repr

/-- The three `total -= bucket` lines shared by the expiry paths. -/
def WindowCounts.subBucket (t : WindowCounts) (b : Bucket) : WindowCounts :=
  { requests := sub32 t.requests b.requests
    successes := sub32 t.successes b.successes
    failures := sub32 t.failures b.failures }

/-- `SlidingWindow` from sliding_window.go. -/
structure SlidingWindow where
  size : Int
  numBucks : Nat
  buckets : List Bucket
  total : WindowCounts
deriving DecidableEq, Repr

/-- `NewSlidingWindow` from sliding_window.go, with its defaults. -/
def NewSlidingWindow (size : Int) (numBuckets : Int) : SlidingWindow :=
  let numBuckets : Int := if numBuckets ≤ 0 then 10 else numBuckets
  let size : Int := if size ≤ 0 then 10 * nsPerSecond else size
  { size := size, numBucks := numBuckets.toNat, buckets := [], total := {} }

/-- The loop body shared by `expire`: subtract every leading bucket whose
start is at or before `windowStart`, returning the surviving suffix and
the adjusted total.  `bucket.startTime.After(windowStart)` ends the scan. -/
def expireLoop : List Bucket → WindowCounts → Int → List Bucket × WindowCounts
  | [], total, _ => ([], total)
  | b :: rest, total, windowStart =>
      if windowStart < b.startTime then (b :: rest, total)
      else expireLoop rest (total.subBucket b) windowStart

/-- `expire` from sliding_window.go: drops the expired prefix and subtracts
its tallies from the aggregate. -/
def SlidingWindow.expire (sw : SlidingWindow) (now : Int) : SlidingWindow :=
  let r := expireLoop sw.buckets sw.total (now - sw.size)
  { sw with buckets := r.1, total := r.2 }

/-- `expireReadOnly` from sliding_window.go: subtracts the tallies of the
expired prefix from `sw.total` but does NOT remove the buckets.  (Despite
its comment, the source subtracts from the shared total, not a copy.) -/
def SlidingWindow.expireReadOnly (sw : SlidingWindow) (now : Int) : SlidingWindow :=
  { sw with total := (expireLoop sw.buckets sw.total (now - sw.size)).2 }

/-- `GetCounts` from sliding_window.go: applies the reader's passive expiry
and returns the aggregate triple.  The mutation of `sw.total` performed by
`expireReadOnly` persists, so the updated window is returned alongside. -/
def SlidingWindow.GetCounts (sw : SlidingWindow) (now : Int) :
    SlidingWindow × Nat × Nat × Nat :=
  let sw := sw.expireReadOnly now
  (sw, sw.total.requests, sw.total.successes, sw.total.failures)

/-- The append-and-bound part of `getCurrentBucket`: append a fresh bucket
and, if the bucket count now exceeds `numBucks`, drop the oldest while
subtracting its tallies. -/
def SlidingWindow.appendBucket (sw : SlidingWindow) (bucketStart : Int) : SlidingWindow :=
  let sw := { sw with buckets := sw.buckets ++ [{ startTime := bucketStart }] }
  if sw.numBucks < sw.buckets.length then
    match sw.buckets with
    | [] => sw
    | removed :: rest => { sw with buckets := rest, total := sw.total.subBucket removed }
  else sw

/-- Increment the request tally (and the success or failure tally) of the
last bucket — the bucket `getCurrentBucket` returns a pointer to. -/
def bumpLast (success : Bool) : List Bucket → List Bucket
  | [] => []
  | [b] =>
      [{ b with
          requests := inc32 b.requests
          successes := if success then inc32 b.successes else b.successes
          failures := if success then b.failures else inc32 b.failures }]
  | b :: rest => b :: bumpLast success rest

/-- `Record` from sliding_window.go: expire, locate or create the current
bucket (`now` truncated to the bucket duration; the newest bucket is reused
when its start matches), then increment that bucket and the aggregate. -/
def SlidingWindow.Record (sw : SlidingWindow) (success : Bool) (now : Int) : SlidingWindow :=
  let sw := sw.expire now
  let bucketDuration := sw.size / (sw.numBucks : Int)
  let bucketStart := bucketDuration * (now / bucketDuration)
  let sw :=
    match sw.buckets.getLast? with
    | some last => if last.startTime = bucketStart then sw else sw.appendBucket bucketStart
    | none => sw.appendBucket bucketStart
  { sw with
    buckets := bumpLast success sw.buckets
    total :=
      { requests := inc32 sw.total.requests
        successes := if success then inc32 sw.total.successes else sw.total.successes
        failures := if success then sw.total.failures else inc32 sw.total.failures } }

/-- `Reset` from sliding_window.go. -/
def SlidingWindow.ResetW (sw : SlidingWindow) : SlidingWindow :=
  { sw with buckets := [], total := {} }

/-! ### Slow-call detector (context.go)

The `float64` rate is modelled as an exact rational. -/

/-- `SlowCallConfig` from context.go. -/
structure SlowCallConfig where
  slowCallDuration : Int := 0
  slowCallRateThreshold : ℚ := 0
deriving DecidableEq, Repr

/-- `SlowCallDetector` from context.go. -/
structure SlowCallDetector where
  config : SlowCallConfig
  slowCalls : Nat := 0
  totalCalls : Nat := 0
deriving DecidableEq, Repr

/-- `NewSlowCallDetector` from context.go, with its defaults. -/
def NewSlowCallDetector (config : SlowCallConfig) : SlowCallDetector :=
  let config :=
    { config with
      slowCallDuration :=
        if config.slowCallDuration = 0 then 5 * nsPerSecond else config.slowCallDuration }
  let config :=
    { config with
      slowCallRateThreshold :=
        if config.slowCallRateThreshold = 0 then 1 / 2 else config.slowCallRateThreshold }
  { config := config }

/-- `Record` from context.go: increment total; increment slow iff the
duration strictly exceeds the threshold. -/
def SlowCallDetector.Record (d : SlowCallDetector) (duration : Int) : SlowCallDetector :=
  let d := { d with totalCalls := d.totalCalls + 1 }
  if d.config.slowCallDuration < duration then { d with slowCalls := d.slowCalls + 1 } else d

/-- `Reset` from context.go. -/
def SlowCallDetector.ResetD (d : SlowCallDetector) : SlowCallDetector :=
  { d with slowCalls := 0, totalCalls := 0 }

/-! ### ExecuteWithContext (context.go)

`ExecuteWithContext` races the work (run in a goroutine, guarded by a
recover that reports a failure) against the context's done channel.  Its
sequential effect on the breaker is determined by which side finishes
first and by how the work ends; the model below enumerates, straight from
the source's three completion sites, the `(generation, success)` argument
pairs with which `afterRequest` is invoked for one admitted invocation. -/

/-- How the caller's work unit ends: a normal return carrying its error
value, or an abnormal abort (panic). -/
inductive WorkEnd (ε : Type) where
  | normal (e : Option ε)
  | panics
deriving DecidableEq, Repr

/-- Which side of the `select` in `ExecuteWithContext` fires first. -/
inductive RaceWinner where
  | tokenFirst
  | workFirst
deriving DecidableEq, Repr

/-- Modelled on the source of `ExecuteWithContext` (context.go): the list of
`(generation, success)` pairs passed to `afterRequest` for one admitted
invocation.  The `ctx.Done()` branch reports `(generation, false)`; the
`done` branch reports `(generation, err == nil)`; the goroutine's recover
reports `(generation, false)` whenever the work panics — in addition to the
`ctx.Done()` report when the token already fired, since nothing guards
against a second call. -/
def executeWithContextAfterCalls {ε : Type} (generation : Nat) :
    RaceWinner → WorkEnd ε → List (Nat × Bool)
  | RaceWinner.tokenFirst, WorkEnd.normal _ => [(generation, false)]
  | RaceWinner.tokenFirst, WorkEnd.panics => [(generation, false), (generation, false)]
  | RaceWinner.workFirst, WorkEnd.normal e => [(generation, e.isNone)]
  | RaceWinner.workFirst, WorkEnd.panics => [(generation, false)]

/-- Apply a list of completion reports to a breaker, in order. -/
def applyAfterCalls (cb : CircuitBreaker) (calls : List (Nat × Bool)) (now : Int) :
    CircuitBreaker :=
  calls.foldl (fun cb c => afterRequest cb c.1 c.2 now) cb

/-! ### Operation sequences and reachable breaker systems

The completion protocol is invoked once per admitted invocation, with the
generation token returned by `beforeRequest`.  A system pairs a breaker
with the multiset (as a list) of tokens of admitted invocations whose
completion is still outstanding. -/

/-- One engine instance together with the generation tokens of its
admitted-but-not-yet-completed invocations. -/
structure Sys where
  cb : CircuitBreaker
  inflight : List Nat

/-- An admission attempt (`beforeRequest`): when admitted, the returned
generation token joins the in-flight list; a rejection leaves it alone. -/
def requestStep (s : Sys) (now : Int) : Sys :=
  match beforeRequest s.cb now with
  | (cb, generation, none) => ⟨cb, generation :: s.inflight⟩
  | (cb, _, some _) => ⟨cb, s.inflight⟩

/-- The completion (`afterRequest`) of one outstanding admission, consuming
its token. -/
def completeStep (s : Sys) (generation : Nat) (success : Bool) (now : Int) : Sys :=
  ⟨afterRequest s.cb generation success now, s.inflight.erase generation⟩

/-- A state read (`State()`), which performs the lazy transitions. -/
def queryStep (s : Sys) (now : Int) : Sys :=
  ⟨(currentState s.cb now).1, s.inflight⟩

/-- The systems reachable by sequences of breaker operations: construction,
admissions, completions of outstanding admissions, and state reads.  State
transitions and generation resets happen inside these operations. -/
inductive Reachable : Sys → Prop where
  | init (config : Config Unit) (now : Int) : Reachable ⟨New config now, []⟩
  | request {s : Sys} (now : Int) : Reachable s → Reachable (requestStep s now)
  | complete {s : Sys} (generation : Nat) (success : Bool) (now : Int) :
      Reachable s → generation ∈ s.inflight →
      Reachable (completeStep s generation success now)
  | query {s : Sys} (now : Int) : Reachable s → Reachable (queryStep s now)

/-- Between two breaker values, either the generation and the counts are
untouched, or a new generation was entered and the counts were cleared. -/
def GenStable (cb cb2 : CircuitBreaker) : Prop :=
  (cb2.generation = cb.generation ∧ cb2.counts = cb.counts) ∨
  (cb.generation < cb2.generation ∧ cb2.counts = ({} : Counts))

/-- The inductive invariant: every outstanding token is at most the current
generation; the stored `uint32` tallies are the mod-`2 ^ 32` images of ideal
(unwrapped) tallies for which the applied outcomes plus the outstanding
admissions of the current generation are bounded by the ideal request
tally; and the two consecutive tallies are never simultaneously
non-zero. -/
def SysInv (s : Sys) : Prop :=
  (∀ g ∈ s.inflight, g ≤ s.cb.generation) ∧
  (∃ R S F : Nat,
      S + F + s.inflight.count s.cb.generation ≤ R ∧
      s.cb.counts.requests = R % u32Mod ∧
      s.cb.counts.totalSuccesses = S % u32Mod ∧
      s.cb.counts.totalFailures = F % u32Mod) ∧
  (s.cb.counts.consecutiveSuccesses = 0 ∨ s.cb.counts.consecutiveFailures = 0)

/-! ### Concrete fixtures used by individual claims -/

/-- The success classification §4.5 of the spec prescribes for `Execute`:
the configured `Config.IsSuccessful` when present, else the default that
treats a nil/absent failure value as success. -/
def specIsSuccessful {ε : Type} (config : Config ε) (e : Option ε) : Bool :=
  (config.isSuccessful.getD (fun e => e.isNone)) e

/-- A configuration whose success classifier accepts every outcome. -/
def c1Config : Config Unit := { isSuccessful := some fun _ => true }

/-- A 10-second, 10-bucket window holding one successful record made at
time 0. -/
def c2Window : SlidingWindow := (NewSlidingWindow 10 10).Record true 0

/-- A Closed breaker at generation 5 with some applied outcomes. -/
def c3Breaker : CircuitBreaker :=
  { maxRequests := 1, interval := 0, timeout := 100, readyToTrip := fun _ => false,
    state := State.closed, generation := 5,
    counts := { requests := 2, totalSuccesses := 1, totalFailures := 1,
                consecutiveSuccesses := 0, consecutiveFailures := 1 },
    expiry := 0, notifications := [] }

/-- An Open breaker whose cool-off expiry is the instant 100. -/
def c4Breaker : CircuitBreaker :=
  { maxRequests := 1, interval := 0, timeout := 50, readyToTrip := fun _ => false,
    state := State.open_, generation := 3, counts := {}, expiry := 100,
    notifications := [] }

/-- A freshly constructed breaker with the default configuration. -/
def c5Breaker : CircuitBreaker := New ({} : Config Unit) 0

/-- The admission of one invocation on `c5Breaker` at time 1. -/
def c5Admission : CircuitBreaker × Nat × Option Rejection := beforeRequest c5Breaker 1

/-- Construction, one admission at time 1, and its successful completion at
time 2. -/
def c6Sys : Sys := completeStep (requestStep ⟨New ({} : Config Unit) 0, []⟩ 1) 1 true 2

/-- `n` further admissions at time 1, in sequence. -/
def requestIter : Nat → Sys → Sys
  | 0, s => s
  | n + 1, s => requestIter n (requestStep s 1)

/-- After `c6Sys` (one completed success, Requests = 1), a further
`2 ^ 32 - 1` admissions in the same Closed generation wrap the `uint32`
request tally back to 0 while TotalSuccesses stays 1. -/
def wrapSys : Sys := requestIter (u32Mod - 1) c6Sys

/-- A default-configured breaker after `n` invocations that each return a
failure value, all at time 1. -/
def c7FailRun (n : Nat) : CircuitBreaker :=
  (List.range n).foldl (fun cb _ => (Execute cb (some ()) 1 1).1) (New ({} : Config Unit) 0)

/-- A Half-Open breaker with a probe budget of 3 and no admissions yet. -/
def c8Breaker : CircuitBreaker :=
  { maxRequests := 3, interval := 0, timeout := 100, readyToTrip := fun _ => false,
    state := State.halfOpen, generation := 7, counts := {}, expiry := 0,
    notifications := [] }

/-- `c8Breaker` after three admissions, none of them completed. -/
def c8After3 : CircuitBreaker :=
  (beforeRequest (beforeRequest (beforeRequest c8Breaker 1).1 2).1 3).1

/-- An Open breaker past its expiry, with non-zero stored tallies. -/
def c10Breaker : CircuitBreaker :=
  { maxRequests := 2, interval := 0, timeout := 50, readyToTrip := fun _ => false,
    state := State.open_, generation := 4,
    counts := { requests := 3, totalSuccesses := 0, totalFailures := 3,
                consecutiveSuccesses := 0, consecutiveFailures := 3 },
    expiry := 60, notifications := [] }

/-! ### Helper lemmas -/

theorem toNewGeneration_generation (cb : CircuitBreaker) (now : Int) :
    (toNewGeneration cb now).generation = cb.generation + 1 := rfl

theorem toNewGeneration_counts (cb : CircuitBreaker) (now : Int) :
    (toNewGeneration cb now).counts = ({} : Counts) := rfl

theorem setState_gen_of_ne {cb : CircuitBreaker} {s : State} (now : Int)
    (h : ¬ cb.state = s) : (setState cb s now).generation = cb.generation + 1 := by
  simp [setState, h, toNewGeneration]

theorem setState_counts_of_ne {cb : CircuitBreaker} {s : State} (now : Int)
    (h : ¬ cb.state = s) : (setState cb s now).counts = ({} : Counts) := by
  simp [setState, h, toNewGeneration]

theorem setState_state_of_ne {cb : CircuitBreaker} {s : State} (now : Int)
    (h : ¬ cb.state = s) : (setState cb s now).state = s := by
  simp [setState, h, toNewGeneration]

theorem setState_genStable (cb : CircuitBreaker) (s : State) (now : Int) :
    GenStable cb (setState cb s now) := by
  unfold setState GenStable
  split
  · exact Or.inl ⟨rfl, rfl⟩
  · exact Or.inr ⟨Nat.lt_succ_self _, rfl⟩

theorem currentState_genStable (cb : CircuitBreaker) (now : Int) :
    GenStable cb (currentState cb now).1 := by
  show GenStable cb
    (match cb.state with
      | State.closed =>
          if cb.expiry ≠ 0 ∧ cb.expiry < now then toNewGeneration cb now else cb
      | State.open_ =>
          if cb.expiry < now then setState cb State.halfOpen now else cb
      | State.halfOpen => cb)
  cases cb.state with
  | closed =>
      dsimp only
      split
      · exact Or.inr ⟨Nat.lt_succ_self _, rfl⟩
      · exact Or.inl ⟨rfl, rfl⟩
  | open_ =>
      dsimp only
      split
      · exact setState_genStable cb State.halfOpen now
      · exact Or.inl ⟨rfl, rfl⟩
  | halfOpen => exact Or.inl ⟨rfl, rfl⟩

theorem currentState_state (cb : CircuitBreaker) (now : Int) :
    (currentState cb now).2.1 = (currentState cb now).1.state := rfl

theorem currentState_generation (cb : CircuitBreaker) (now : Int) :
    (currentState cb now).2.2 = (currentState cb now).1.generation := rfl

theorem sysInv_cleared {cb cb2 : CircuitBreaker} {fl : List Nat}
    (h1 : ∀ g ∈ fl, g ≤ cb.generation)
    (hgen : cb.generation < cb2.generation) (hcounts : cb2.counts = ({} : Counts)) :
    SysInv ⟨cb2, fl⟩ := by
  refine ⟨fun g hg => le_trans (h1 g hg) (le_of_lt hgen), ?_, ?_⟩
  · have hz : fl.count cb2.generation = 0 := by
      rw [List.count_eq_zero]
      intro hmem
      exact absurd (h1 _ hmem) (not_le.mpr hgen)
    refine ⟨0, 0, 0, by simp [hz], ?_, ?_, ?_⟩ <;> rw [hcounts] <;> rfl
  · rw [hcounts]
    exact Or.inl rfl

theorem genStable_sysInv {cb cb2 : CircuitBreaker} {fl : List Nat}
    (h : SysInv ⟨cb, fl⟩) (hg : GenStable cb cb2) : SysInv ⟨cb2, fl⟩ := by
  obtain ⟨h1, h2, h3⟩ := h
  rcases hg with ⟨hgen, hcounts⟩ | ⟨hgen, hcounts⟩
  · obtain ⟨R, S, F, hb, hr, hs, hf⟩ := h2
    refine ⟨fun g hgm => hgen ▸ h1 g hgm, ⟨R, S, F, ?_, ?_, ?_, ?_⟩, ?_⟩
    · rw [hgen]
      exact hb
    · rw [hcounts]
      exact hr
    · rw [hcounts]
      exact hs
    · rw [hcounts]
      exact hf
    · rw [hcounts]
      exact h3
  · exact sysInv_cleared h1 hgen hcounts

theorem sysInv_erase {cb : CircuitBreaker} {fl : List Nat} (g : Nat)
    (h : SysInv ⟨cb, fl⟩) : SysInv ⟨cb, fl.erase g⟩ := by
  obtain ⟨h1, h2, h3⟩ := h
  obtain ⟨R, S, F, hb, hr, hs, hf⟩ := h2
  refine ⟨fun x hx => h1 x (List.mem_of_mem_erase hx), ⟨R, S, F, ?_, hr, hs, hf⟩, h3⟩
  have hle : (fl.erase g).count cb.generation ≤ fl.count cb.generation :=
    (List.erase_sublist g fl).count_le cb.generation
  dsimp only at hb ⊢
  omega

theorem currentState_link (cb : CircuitBreaker) (now : Int) {cb1 : CircuitBreaker}
    {st : State} {gen : Nat} (h : currentState cb now = (cb1, st, gen)) :
    st = cb1.state ∧ gen = cb1.generation := by
  constructor
  · have hh := currentState_state cb now
    rw [h] at hh
    exact hh
  · have hh := currentState_generation cb now
    rw [h] at hh
    exact hh

theorem sysInv_requestStep {s : Sys} (now : Int) (h : SysInv s) :
    SysInv (requestStep s now) := by
  obtain ⟨cb, fl⟩ := s
  have hmid : SysInv ⟨(currentState cb now).1, fl⟩ :=
    genStable_sysInv h (currentState_genStable cb now)
  unfold requestStep beforeRequest
  rcases hcs : currentState cb now with ⟨cb1, st, gen⟩
  obtain ⟨hst, hgen⟩ := currentState_link cb now hcs
  rw [hcs] at hmid
  dsimp only at hmid ⊢
  subst hst hgen
  split_ifs with h1 h2
  · exact hmid
  · exact hmid
  · obtain ⟨k1, k2, k3⟩ := hmid
    obtain ⟨R, S, F, kb, kr, ks, kf⟩ := k2
    dsimp only at k1 kb kr ks kf k3
    refine ⟨?_, ⟨R + 1, S, F, ?_, ?_, ?_, ?_⟩, ?_⟩
    · intro g hg
      rcases List.mem_cons.mp hg with hgl | hgl
      · subst hgl
        exact le_refl _
      · exact k1 g hgl
    · dsimp only
      rw [List.count_cons_self]
      omega
    · dsimp only [Counts.onRequest]
      rw [kr]
      simp only [u32Mod]
      omega
    · exact ks
    · exact kf
    · exact k3

theorem sysInv_onSuccess_erase {cb1 : CircuitBreaker} {fl : List Nat} (now : Int)
    (h : SysInv ⟨cb1, fl⟩) (hmem : cb1.generation ∈ fl) :
    SysInv ⟨cb1.onSuccess cb1.state now, fl.erase cb1.generation⟩ := by
  obtain ⟨h1, h2, h3⟩ := h
  obtain ⟨R, S, F, hb, hr, hs, hf⟩ := h2
  dsimp only at h1 hb hr hs hf h3
  have hpos : 0 < fl.count cb1.generation := List.count_pos_iff.mpr hmem
  have hce : (fl.erase cb1.generation).count cb1.generation
      = fl.count cb1.generation - 1 := List.count_erase_self _ _
  have h1e : ∀ g ∈ fl.erase cb1.generation, g ≤ cb1.generation :=
    fun g hg => h1 g (List.mem_of_mem_erase hg)
  cases hst : cb1.state with
  | closed =>
      simp only [CircuitBreaker.onSuccess]
      refine ⟨h1e, ⟨R, S + 1, F, ?_, hr, ?_, hf⟩, Or.inr rfl⟩
      · dsimp only
        omega
      · dsimp only [Counts.onSuccess]
        rw [hs]
        simp only [u32Mod]
        omega
  | halfOpen =>
      simp only [CircuitBreaker.onSuccess]
      split_ifs with htrip
      · have hne : ¬ ({ cb1 with counts := cb1.counts.onSuccess } : CircuitBreaker).state
            = State.closed := by
          dsimp only
          rw [hst]
          decide
        refine sysInv_cleared h1e ?_ (setState_counts_of_ne now hne)
        rw [setState_gen_of_ne now hne]
        dsimp only
        exact Nat.lt_succ_self _
      · refine ⟨h1e, ⟨R, S + 1, F, ?_, hr, ?_, hf⟩, Or.inr rfl⟩
        · dsimp only
          omega
        · dsimp only [Counts.onSuccess]
          rw [hs]
          simp only [u32Mod]
          omega
  | open_ =>
      simp only [CircuitBreaker.onSuccess]
      exact sysInv_erase _ ⟨h1, ⟨R, S, F, hb, hr, hs, hf⟩, h3⟩

theorem sysInv_onFailure_erase {cb1 : CircuitBreaker} {fl : List Nat} (now : Int)
    (h : SysInv ⟨cb1, fl⟩) (hmem : cb1.generation ∈ fl) :
    SysInv ⟨cb1.onFailure cb1.state now, fl.erase cb1.generation⟩ := by
  obtain ⟨h1, h2, h3⟩ := h
  obtain ⟨R, S, F, hb, hr, hs, hf⟩ := h2
  dsimp only at h1 hb hr hs hf h3
  have hpos : 0 < fl.count cb1.generation := List.count_pos_iff.mpr hmem
  have hce : (fl.erase cb1.generation).count cb1.generation
      = fl.count cb1.generation - 1 := List.count_erase_self _ _
  have h1e : ∀ g ∈ fl.erase cb1.generation, g ≤ cb1.generation :=
    fun g hg => h1 g (List.mem_of_mem_erase hg)
  cases hst : cb1.state with
  | closed =>
      simp only [CircuitBreaker.onFailure]
      split_ifs with htrip
      · have hne : ¬ ({ cb1 with counts := cb1.counts.onFailure } : CircuitBreaker).state
            = State.open_ := by
          dsimp only
          rw [hst]
          decide
        refine sysInv_cleared h1e ?_ (setState_counts_of_ne now hne)
        rw [setState_gen_of_ne now hne]
        dsimp only
        exact Nat.lt_succ_self _
      · refine ⟨h1e, ⟨R, S, F + 1, ?_, hr, hs, ?_⟩, Or.inl rfl⟩
        · dsimp only
          omega
        · dsimp only [Counts.onFailure]
          rw [hf]
          simp only [u32Mod]
          omega
  | halfOpen =>
      simp only [CircuitBreaker.onFailure]
      have hne : ¬ cb1.state = State.open_ := by
        rw [hst]
        decide
      refine sysInv_cleared h1e ?_ (setState_counts_of_ne now hne)
      rw [setState_gen_of_ne now hne]
      exact Nat.lt_succ_self _
  | open_ =>
      simp only [CircuitBreaker.onFailure]
      exact sysInv_erase _ ⟨h1, ⟨R, S, F, hb, hr, hs, hf⟩, h3⟩

theorem sysInv_completeStep {s : Sys} (generation : Nat) (success : Bool) (now : Int)
    (h : SysInv s) (hmem : generation ∈ s.inflight) :
    SysInv (completeStep s generation success now) := by
  obtain ⟨cb, fl⟩ := s
  have hmid : SysInv ⟨(currentState cb now).1, fl⟩ :=
    genStable_sysInv h (currentState_genStable cb now)
  unfold completeStep afterRequest
  rcases hcs : currentState cb now with ⟨cb1, st, gen⟩
  obtain ⟨hst, hgen⟩ := currentState_link cb now hcs
  rw [hcs] at hmid
  dsimp only at hmid hmem ⊢
  subst hst hgen
  by_cases hb : cb1.generation = generation
  · subst hb
    rw [if_neg (not_not_intro rfl)]
    cases success
    · exact sysInv_onFailure_erase now hmid hmem
    · exact sysInv_onSuccess_erase now hmid hmem
  · rw [if_pos hb]
    exact sysInv_erase generation hmid

theorem sysInv_init (config : Config Unit) (now : Int) : SysInv ⟨New config now, []⟩ := by
  refine ⟨fun g hg => absurd hg (List.not_mem_nil g),
    ⟨0, 0, 0, ?_, rfl, rfl, rfl⟩, Or.inl rfl⟩
  simp [New, toNewGeneration, List.count_nil]

theorem reachable_sysInv {s : Sys} (h : Reachable s) : SysInv s := by
  induction h with
  | init config now => exact sysInv_init config now
  | request now _ ih => exact sysInv_requestStep now ih
  | complete generation success now _ hmem ih =>
      exact sysInv_completeStep generation success now ih hmem
  | query now _ ih => exact genStable_sysInv ih (currentState_genStable _ now)

theorem setState_maxRequests (cb : CircuitBreaker) (s : State) (now : Int) :
    (setState cb s now).maxRequests = cb.maxRequests := by
  unfold setState
  split
  · rfl
  · rfl

theorem setState_expiry_halfOpen {cb : CircuitBreaker} (now : Int)
    (h : ¬ cb.state = State.halfOpen) :
    (setState cb State.halfOpen now).expiry = 0 := by
  simp [setState, h, toNewGeneration]

/-! ### Claim theorems -/

/-- Claim C1: the claim says `Execute` classifies the work's result with the
configured `Config.IsSuccessful` (defaulting to nil-is-success).  The code
does not: `New` drops the field and `Execute` passes `err == nil` to
`afterRequest` unconditionally.  Evaluated at the failing input — a config
whose classifier accepts everything and a work unit returning a non-nil
error — the classifier says success, yet the breaker records a failure. -/
theorem execute_ignores_configured_classifier :
    specIsSuccessful c1Config (some ()) = true ∧
    (Execute (New c1Config 0) (some ()) 1 1).2 = some (ExecError.work ()) ∧
    (Execute (New c1Config 0) (some ()) 1 1).1.counts.totalFailures = 1 ∧
    (Execute (New c1Config 0) (some ()) 1 1).1.counts.totalSuccesses = 0 ∧
    (Execute (New c1Config 0) (some ()) 1 1).1.counts.consecutiveFailures = 1 := by
  decide

/-- Claim C2: the claim says two `GetCounts` reads at the same instant with
no intervening `Record` or `Reset` return the same triple.  The code's
`expireReadOnly` subtracts the expired buckets from the shared aggregate
without removing them, so a second read at the same instant subtracts them
again and wraps below zero: on a window holding one success recorded at
time 0, read twice at time 20, the first read returns (0,0,0) and the
second (2^32-1, 2^32-1, 0), with the expired bucket still present. -/
theorem slidingWindow_read_not_idempotent :
    (c2Window.GetCounts 20).2 = (0, 0, 0) ∧
    ((c2Window.GetCounts 20).1.GetCounts 20).2 = (4294967295, 4294967295, 0) ∧
    (c2Window.GetCounts 20).1.buckets = c2Window.buckets := by
  decide

/-- Claim C3: a completion whose admission-time generation differs from the
generation current at completion time is discarded: `afterRequest` then
coincides exactly with the bare effective-state re-read (`currentState`) at
the same instant — the outcome applies neither `onSuccess` nor `onFailure`,
and contributes no counter change, transition, or notifier invocation
beyond that shared lazy re-read. -/
theorem afterRequest_generation_mismatch (cb : CircuitBreaker) (before : Nat)
    (success : Bool) (now : Int)
    (h : (currentState cb now).2.2 ≠ before) :
    afterRequest cb before success now = (currentState cb now).1 := by
  unfold afterRequest
  rcases hcs : currentState cb now with ⟨cb1, st, gen⟩
  rw [hcs] at h
  dsimp only at h ⊢
  rw [if_pos h]

/-- Witness for C3 at a concrete Closed breaker at generation 5, completed
with the stale token 4. -/
theorem afterRequest_generation_mismatch_witness :
    afterRequest c3Breaker 4 true 10 = (currentState c3Breaker 10).1 :=
  afterRequest_generation_mismatch c3Breaker 4 true 10 (by decide)

/-- Claim C4 counterexample: at the exact instant `now = expiry`, the claim
says an Open breaker is eligible and moves to Half-Open with the admission
proceeding; the code's `expiry.Before(now)` comparison is strict, so the
admission at `now = 100 = expiry` is rejected with the circuit-open error
and the breaker stays Open at the same generation. -/
theorem open_admission_at_expiry_counterexample :
    c4Breaker.state = State.open_ ∧
    c4Breaker.expiry = 100 ∧
    (beforeRequest c4Breaker 100).2.2 = some Rejection.circuitOpen ∧
    (beforeRequest c4Breaker 100).1.state = State.open_ ∧
    (beforeRequest c4Breaker 100).1.generation = c4Breaker.generation := by
  decide

/-- Claim C4 (amended): in Open, an admission strictly after the expiry
transitions to Half-Open (new generation, expiry zero) and proceeds, while
an admission at or before the expiry — including the exact instant
`now = expiry` — leaves the breaker Open and is rejected with the
circuit-open error. -/
theorem open_admission_strictly_after_expiry (cb : CircuitBreaker) (now : Int)
    (hst : cb.state = State.open_) (hmax : 0 < cb.maxRequests) :
    (cb.expiry < now →
      (beforeRequest cb now).1.state = State.halfOpen ∧
      (beforeRequest cb now).1.generation = cb.generation + 1 ∧
      (beforeRequest cb now).1.expiry = 0 ∧
      (beforeRequest cb now).1.counts.requests = 1 ∧
      (beforeRequest cb now).2.2 = none) ∧
    (now ≤ cb.expiry →
      beforeRequest cb now = (cb, cb.generation, some Rejection.circuitOpen)) := by
  have hne : ¬ cb.state = State.halfOpen := by
    rw [hst]
    decide
  constructor
  · intro hlt
    have hcs : currentState cb now
        = (setState cb State.halfOpen now, (setState cb State.halfOpen now).state,
           (setState cb State.halfOpen now).generation) := by
      unfold currentState
      rw [hst]
      dsimp only
      rw [if_pos hlt]
    have hstH : (setState cb State.halfOpen now).state = State.halfOpen :=
      setState_state_of_ne now hne
    unfold beforeRequest
    rw [hcs]
    dsimp only
    rw [if_neg (by rw [hstH]; decide)]
    rw [if_neg ?budget]
    case budget =>
      rintro ⟨-, hle2⟩
      rw [setState_counts_of_ne now hne, setState_maxRequests] at hle2
      dsimp only at hle2
      omega
    refine ⟨hstH, setState_gen_of_ne now hne, setState_expiry_halfOpen now hne, ?_, rfl⟩
    show ((setState cb State.halfOpen now).counts.onRequest).requests = 1
    rw [setState_counts_of_ne now hne]
    rfl
  · intro hle
    have hnlt : ¬ cb.expiry < now := not_lt.mpr hle
    have hcs2 : currentState cb now = (cb, cb.state, cb.generation) := by
      unfold currentState
      rw [hst]
      dsimp only
      rw [if_neg hnlt, hst]
    unfold beforeRequest
    rw [hcs2, hst]
    dsimp only
    rw [if_pos rfl]

/-- Witness for the amended C4: the concrete Open breaker with expiry 100
transitions and is admitted at time 101, and is rejected at time 100. -/
theorem open_admission_strictly_after_expiry_witness :
    (beforeRequest c4Breaker 101).1.state = State.halfOpen ∧
    beforeRequest c4Breaker 100 = (c4Breaker, c4Breaker.generation, some Rejection.circuitOpen) :=
  ⟨((open_admission_strictly_after_expiry c4Breaker 101 (by decide) (by decide)).1
      (by decide)).1,
   (open_admission_strictly_after_expiry c4Breaker 100 (by decide) (by decide)).2
      (by decide)⟩

/-- Claim C5: the claim (and §5 of the spec) requires the cancellable entry
point to call `afterRequest` at most once per admission even if the work
later aborts abnormally.  `ExecuteWithContext` has no single-fire guard:
when the token fires first it reports a failure from the `select` branch,
and if the work then panics the goroutine's recover reports a second
failure with the same generation.  On a fresh default breaker this records
two failures for a single admission. -/
theorem executeWithContext_cancel_then_abort_double_report :
    c5Admission.2.2 = none ∧
    executeWithContextAfterCalls c5Admission.2.1 RaceWinner.tokenFirst
        (WorkEnd.normal (none : Option Unit)) = [(c5Admission.2.1, false)] ∧
    (executeWithContextAfterCalls c5Admission.2.1 RaceWinner.tokenFirst
        (WorkEnd.panics (ε := Unit))).length = 2 ∧
    (applyAfterCalls c5Admission.1
        (executeWithContextAfterCalls c5Admission.2.1 RaceWinner.tokenFirst
          (WorkEnd.panics (ε := Unit))) 2).counts.totalFailures = 2 ∧
    (applyAfterCalls c5Admission.1
        (executeWithContextAfterCalls c5Admission.2.1 RaceWinner.tokenFirst
          (WorkEnd.panics (ε := Unit))) 2).counts.requests = 1 := by
  decide

theorem requestStep_closed {s : Sys} (now : Int)
    (hst : s.cb.state = State.closed) (hexp : s.cb.expiry = 0) :
    requestStep s now
      = ⟨{ s.cb with counts := s.cb.counts.onRequest }, s.cb.generation :: s.inflight⟩ := by
  have hcs : currentState s.cb now = (s.cb, s.cb.state, s.cb.generation) := by
    unfold currentState
    rw [hst]
    dsimp only
    rw [if_neg ?notExpired, hst]
    case notExpired =>
      rintro ⟨hne0, -⟩
      exact hne0 hexp
  unfold requestStep beforeRequest
  rw [hcs, hst]
  dsimp only
  rw [if_neg (by decide : ¬ (State.closed = State.open_))]
  rw [if_neg ?notBudget]
  case notBudget =>
    rintro ⟨hcontr, -⟩
    exact absurd hcontr (by decide)

theorem requestIter_closed {s : Sys} (n : Nat)
    (hst : s.cb.state = State.closed) (hexp : s.cb.expiry = 0)
    (hlt : s.cb.counts.requests < u32Mod) :
    (requestIter n s).cb.state = State.closed ∧
    (requestIter n s).cb.expiry = 0 ∧
    (requestIter n s).cb.counts.requests = (s.cb.counts.requests + n) % u32Mod ∧
    (requestIter n s).cb.counts.totalSuccesses = s.cb.counts.totalSuccesses ∧
    (requestIter n s).cb.counts.totalFailures = s.cb.counts.totalFailures := by
  induction n generalizing s with
  | zero =>
      simp only [requestIter]
      refine ⟨hst, hexp, ?_, trivial, trivial⟩
      rw [Nat.add_zero, Nat.mod_eq_of_lt hlt]
  | succ n ih =>
      simp only [requestIter]
      have hstep := requestStep_closed 1 hst hexp
      have hst2 : (requestStep s 1).cb.state = State.closed := by
        rw [hstep]
        exact hst
      have hexp2 : (requestStep s 1).cb.expiry = 0 := by
        rw [hstep]
        exact hexp
      have hreq2 : (requestStep s 1).cb.counts.requests
          = (s.cb.counts.requests + 1) % u32Mod := by
        rw [hstep]
        rfl
      have hlt2 : (requestStep s 1).cb.counts.requests < u32Mod := by
        rw [hreq2]
        exact Nat.mod_lt _ (by decide)
      have hts2 : (requestStep s 1).cb.counts.totalSuccesses
          = s.cb.counts.totalSuccesses := by
        rw [hstep]
        rfl
      have htf2 : (requestStep s 1).cb.counts.totalFailures
          = s.cb.counts.totalFailures := by
        rw [hstep]
        rfl
      obtain ⟨g1, g2, g3, g4, g5⟩ := ih hst2 hexp2 hlt2
      refine ⟨g1, g2, ?_, by rw [g4, hts2], by rw [g5, htf2]⟩
      rw [g3, hreq2]
      simp only [u32Mod]
      omega

theorem reachable_requestIter {s : Sys} (n : Nat) (h : Reachable s) :
    Reachable (requestIter n s) := by
  induction n generalizing s with
  | zero => exact h
  | succ n ih => exact ih (Reachable.request 1 h)

/-- Claim C6 counterexample: the claim's invariant over the stored `uint32`
tallies fails on a reachable system.  Starting from a default breaker with
one admitted and successfully completed invocation (TotalSuccesses = 1,
Requests = 1), a further `2 ^ 32 - 1` admissions in the same Closed
generation wrap the `uint32` request tally to 0, so
`TotalSuccesses + TotalFailures ≤ Requests` fails there. -/
theorem counts_invariant_wrap_counterexample :
    Reachable wrapSys ∧
    wrapSys.cb.counts.totalSuccesses = 1 ∧
    wrapSys.cb.counts.totalFailures = 0 ∧
    wrapSys.cb.counts.requests = 0 ∧
    ¬ (wrapSys.cb.counts.totalSuccesses + wrapSys.cb.counts.totalFailures
        ≤ wrapSys.cb.counts.requests) := by
  have hreach : Reachable c6Sys :=
    Reachable.complete 1 true 2 (Reachable.request 1 (Reachable.init {} 0)) (by decide)
  obtain ⟨-, -, hreq, hts, htf⟩ :=
    requestIter_closed (s := c6Sys) (u32Mod - 1) (by decide) (by decide) (by decide)
  simp only [wrapSys]
  have htsv : (requestIter (u32Mod - 1) c6Sys).cb.counts.totalSuccesses = 1 := by
    rw [hts]
    decide
  have htfv : (requestIter (u32Mod - 1) c6Sys).cb.counts.totalFailures = 0 := by
    rw [htf]
    decide
  have hreqv : (requestIter (u32Mod - 1) c6Sys).cb.counts.requests = 0 := by
    rw [hreq, show c6Sys.cb.counts.requests = 1 from by decide]
    decide
  refine ⟨reachable_requestIter _ hreach, htsv, htfv, hreqv, ?_⟩
  rw [htsv, htfv, hreqv]
  decide

/-- Claim C6 (amended): after every sequence of breaker operations —
construction, admissions, completions of outstanding admissions, and state
reads (which perform the lazy transitions and generation resets) — the two
consecutive tallies are never simultaneously non-zero, and the stored
`uint32` tallies are the mod-`2 ^ 32` images of ideal (unwrapped) tallies
`R`, `S`, `F` satisfying `S + F ≤ R`.  The literal inequality over the
stored fields holds only until an increment wraps, as the counterexample
shows. -/
theorem counts_invariants_mod32 {s : Sys} (h : Reachable s) :
    (∃ R S F : Nat, S + F ≤ R ∧
        s.cb.counts.requests = R % u32Mod ∧
        s.cb.counts.totalSuccesses = S % u32Mod ∧
        s.cb.counts.totalFailures = F % u32Mod) ∧
    (s.cb.counts.consecutiveSuccesses = 0 ∨ s.cb.counts.consecutiveFailures = 0) := by
  obtain ⟨-, ⟨R, S, F, hb, hr, hs, hf⟩, h3⟩ := reachable_sysInv h
  exact ⟨⟨R, S, F, by omega, hr, hs, hf⟩, h3⟩

/-- Witness for the amended C6 on the concrete reachable system built by
construction, one admission, and its successful completion. -/
theorem counts_invariants_mod32_witness :
    (∃ R S F : Nat, S + F ≤ R ∧
        c6Sys.cb.counts.requests = R % u32Mod ∧
        c6Sys.cb.counts.totalSuccesses = S % u32Mod ∧
        c6Sys.cb.counts.totalFailures = F % u32Mod) ∧
    (c6Sys.cb.counts.consecutiveSuccesses = 0 ∨ c6Sys.cb.counts.consecutiveFailures = 0) :=
  counts_invariants_mod32
    (Reachable.complete 1 true 2 (Reachable.request 1 (Reachable.init {} 0)) (by decide))

/-- Claim C7: with no `ReadyToTrip` configured, `New` installs the default
predicate "consecutive failures strictly greater than 5"; consequently a
default breaker is still Closed after five consecutive failures (with the
tally at 5) and Open after the sixth. -/
theorem default_trip_requires_six_failures :
    (∀ c : Counts, (New ({} : Config Unit) 0).readyToTrip c
        = decide (5 < c.consecutiveFailures)) ∧
    (c7FailRun 5).state = State.closed ∧
    (c7FailRun 5).counts.consecutiveFailures = 5 ∧
    (c7FailRun 6).state = State.open_ :=
  ⟨fun _ => rfl, by decide, by decide, by decide⟩

/-- Claim C8: in Half-Open, an admission arriving when the current
generation's request tally is already at or above `MaxRequests` is rejected
with the too-many-requests error, leaving the breaker (and in particular
its `Requests` tally) unchanged. -/
theorem halfOpen_budget_exhausted_rejected (cb : CircuitBreaker) (now : Int)
    (hst : cb.state = State.halfOpen) (hreq : cb.maxRequests ≤ cb.counts.requests) :
    beforeRequest cb now = (cb, cb.generation, some Rejection.tooManyRequests) := by
  have hcs2 : currentState cb now = (cb, cb.state, cb.generation) := by
    unfold currentState
    rw [hst]
    dsimp only
    rw [hst]
  unfold beforeRequest
  rw [hcs2, hst]
  dsimp only
  rw [if_neg (by decide : ¬ (State.halfOpen = State.open_))]
  rw [if_pos ⟨rfl, hreq⟩]

/-- Witness for C8: with `MaxRequests = 3` in Half-Open, after three
admissions (none completed) the fourth admission is rejected. -/
theorem halfOpen_budget_exhausted_rejected_witness :
    c8After3.counts.requests = 3 ∧
    beforeRequest c8After3 4 = (c8After3, c8After3.generation, some Rejection.tooManyRequests) :=
  ⟨by decide, halfOpen_budget_exhausted_rejected c8After3 4 (by decide) (by decide)⟩

/-- Claim C10: `Counts()` returns the stored tallies without evaluating the
lazy transition policy — on an Open breaker past its expiry it leaves the
breaker untouched and reports the pre-transition tallies — whereas
`State()` at the same instant performs the Open → Half-Open transition,
entering a new generation with cleared tallies. -/
theorem countsRead_lazy_vs_stateRead (cb : CircuitBreaker) (now : Int)
    (hst : cb.state = State.open_) (hexp : cb.expiry < now) :
    cb.readCounts = (cb, cb.counts) ∧
    (cb.readState now).2 = State.halfOpen ∧
    (cb.readState now).1.state = State.halfOpen ∧
    (cb.readState now).1.counts = ({} : Counts) ∧
    (cb.readState now).1.generation = cb.generation + 1 := by
  have hne : ¬ cb.state = State.halfOpen := by
    rw [hst]
    decide
  have hcs : currentState cb now
      = (setState cb State.halfOpen now, (setState cb State.halfOpen now).state,
         (setState cb State.halfOpen now).generation) := by
    unfold currentState
    rw [hst]
    dsimp only
    rw [if_pos hexp]
  refine ⟨rfl, ?_, ?_, ?_, ?_⟩ <;> unfold CircuitBreaker.readState <;> rw [hcs] <;> dsimp only
  · exact setState_state_of_ne now hne
  · exact setState_state_of_ne now hne
  · exact setState_counts_of_ne now hne
  · exact setState_gen_of_ne now hne

/-- Witness for C10 on a concrete Open breaker past expiry holding three
recorded failures. -/
theorem countsRead_lazy_vs_stateRead_witness :
    c10Breaker.readCounts = (c10Breaker, c10Breaker.counts) ∧
    (c10Breaker.readState 61).1.counts = ({} : Counts) :=
  ⟨(countsRead_lazy_vs_stateRead c10Breaker 61 (by decide) (by decide)).1,
   (countsRead_lazy_vs_stateRead c10Breaker 61 (by decide) (by decide)).2.2.2.1⟩

end CircuitBreakerSpec
